import Mathlib

/-!
Verification of the telegrampy bot framework: a shallow embedding of the
update-dispatch core, the filter predicates, the conversation-state (FSM)
storage, the webhook secret gate, and the haversine distance function,
together with theorems settling the specification claims about them.
-/

set_option maxHeartbeats 1000000

namespace Telegrampy

/-! ## Data model (types.py)

Only the fields that the verified code paths read are carried; the remaining
optional payload fields of types.py (media attachments, forwarding metadata,
and so on) are never consulted by the dispatcher, the filters under proof, the
FSM storage, or the webhook handler. -/

/-- types.py, class User: the fields read by the verified code paths. -/
structure User where
  id : Int
  is_bot : Bool
  first_name : String
deriving Repr, DecidableEq

/-- types.py, class Chat. -/
structure Chat where
  id : Int
  type : String
deriving Repr, DecidableEq

/-- types.py, class Message: from_user and text are optional in the source;
message_id, date and chat are required. -/
structure Message where
  message_id : Int
  date : Int
  chat : Chat
  from_user : Option User
  text : Option String
deriving Repr, DecidableEq

/-- types.py, class CallbackQuery. -/
structure CallbackQuery where
  id : String
  from_user : User
  chat_instance : String
  data : Option String
deriving Repr, DecidableEq

/-- The Python exceptions that the embedded code paths can raise. -/
inductive PyErr where
  | attributeError
  | indexError
  | valueError
deriving Repr, DecidableEq

/-- Python str.lower() on the ASCII fragment the accepted command names use
(Python strings are sequences of code points, mirrored here by the list of
characters underlying a Lean string). -/
def pyLower (s : String) : String :=
  ⟨s.data.map Char.toLower⟩

/-- Python str.startswith. -/
def pyStartsWith (s pre : String) : Bool :=
  pre.data.isPrefixOf s.data

/-- The Python slice s[1:]: everything after the first character. -/
def pyDrop1 (s : String) : String :=
  ⟨s.data.drop 1⟩

/-- Helper of pySplit: walks the characters keeping the current token
reversed in the accumulator. -/
def splitWsAux : List Char → List Char → List String
  | [], acc => if acc.isEmpty then [] else [⟨acc.reverse⟩]
  | c :: cs, acc =>
    if c.isWhitespace then
      if acc.isEmpty then splitWsAux cs [] else ⟨acc.reverse⟩ :: splitWsAux cs []
    else splitWsAux cs (c :: acc)

/-- Python str.split() with no separator argument: split on runs of
whitespace, discarding empty pieces. -/
def pySplit (s : String) : List String :=
  splitWsAux s.data []

/-! ## Filter predicates (filters.py) -/

/-! ### A model of the Python re engine

The Text and CallbackData constructors interpolate a plain string argument
unescaped into re.compile of the wrapped pattern, so the string is
interpreted as a regular expression: metacharacters stay active.  The engine
is embedded as an abstract syntax of regexes with a derivative-based matcher,
and a compile function covering the fragment of pattern syntax consisting of
literal characters, the dot wildcard, the postfix quantifiers, and
backslash-escaped punctuation; pattern strings outside that fragment are
mapped to none, making the partiality of the embedding explicit. -/

/-- Abstract syntax of the embedded regular-expression fragment. -/
inductive Regex where
  | fail
  | eps
  | ch (c : Char)
  | any
  | seq (a b : Regex)
  | alt (a b : Regex)
  | star (a : Regex)
deriving Repr, DecidableEq

/-- Does the regex accept the empty word? -/
def Regex.nullable : Regex → Bool
  | .fail => false
  | .eps => true
  | .ch _ => false
  | .any => false
  | .seq a b => a.nullable && b.nullable
  | .alt a b => a.nullable || b.nullable
  | .star _ => true

/-- Brzozowski derivative of the regex by one character. -/
def Regex.deriv : Regex → Char → Regex
  | .fail, _ => .fail
  | .eps, _ => .fail
  | .ch a, c => if a == c then .eps else .fail
  | .any, _ => .eps
  | .seq a b, c =>
    if a.nullable then .alt (.seq (a.deriv c) b) (b.deriv c) else .seq (a.deriv c) b
  | .alt a b, c => .alt (a.deriv c) (b.deriv c)
  | .star a, c => .seq (a.deriv c) (.star a)

/-- Does the regex match the whole word? -/
def Regex.matchesFull : Regex → List Char → Bool
  | r, [] => r.nullable
  | r, c :: cs => (r.deriv c).matchesFull cs

/-- Python re.Pattern.match: does the regex match some prefix of the word?
The match is anchored at the start only. -/
def Regex.matchesAtStart : Regex → List Char → Bool
  | r, [] => r.nullable
  | r, c :: cs => r.nullable || (r.deriv c).matchesAtStart cs

/-- The regex accepting exactly one literal word. -/
def litRegex (l : List Char) : Regex :=
  (l.map Regex.ch).foldr Regex.seq Regex.eps

/-- The re metacharacters whose syntax lies outside the embedded fragment
(alternation, groups, classes, counted repetition, inner anchors). -/
def pyMetaChar (c : Char) : Bool :=
  c == '|' || c == '(' || c == ')' || c == '[' || c == ']' ||
    c == '\x7b' || c == '\x7d' || c == '^' || c == '$'

/-- A character that the re engine treats as a literal: not a quantifier, not
the dot, not a backslash and not one of the other metacharacters. -/
def isLitChar (c : Char) : Bool :=
  !(c == '.' || c == '?' || c == '*' || c == '+' || c == '\\' || pyMetaChar c)

/-- Translates a pattern string into the atoms of the fragment, processed
left to right with the (reversed) atoms built so far: a postfix quantifier
rewrites the preceding atom, the dot becomes the wildcard, a backslash
escapes the following punctuation character, metacharacters outside the
fragment yield none, and any other character is a literal atom. -/
def pyAtomsAux : List Char → List Regex → Option (List Regex)
  | [], acc => some acc
  | c :: rest, acc =>
    if c == '?' then
      match acc with
      | a :: acc2 => pyAtomsAux rest (Regex.alt a Regex.eps :: acc2)
      | [] => none
    else if c == '*' then
      match acc with
      | a :: acc2 => pyAtomsAux rest (Regex.star a :: acc2)
      | [] => none
    else if c == '+' then
      match acc with
      | a :: acc2 => pyAtomsAux rest (Regex.seq a (Regex.star a) :: acc2)
      | [] => none
    else if c == '.' then pyAtomsAux rest (Regex.any :: acc)
    else if c == '\\' then
      match rest with
      | d :: rest2 => if d.isAlphanum then none else pyAtomsAux rest2 (Regex.ch d :: acc)
      | [] => none
    else if pyMetaChar c then none
    else pyAtomsAux rest (Regex.ch c :: acc)

/-- re.compile on the embedded fragment: the sequence of the parsed atoms. -/
def pyCompileFragment (s : String) : Option Regex :=
  (pyAtomsAux s.data []).map (fun atoms => atoms.reverse.foldr Regex.seq Regex.eps)

/-- The semantics of the pattern the Text and CallbackData constructors build
from a plain string s, namely re.compile of s wrapped in both anchors and
matched with re.Pattern.match: the inner regex must match the whole text, or
(the dollar anchor also matching just before a trailing newline) the whole
text short of one final newline. -/
def pyAnchoredMatch (r : Regex) (t : List Char) : Bool :=
  r.matchesFull t || (t.getLast? == some '\n' && r.matchesFull t.dropLast)

/-- The constructor argument of the Text and CallbackData filters: either a
plain string or an already compiled pattern (filters.py lines 62-72, 84-94),
the latter given as its abstract syntax. -/
inductive TextArg where
  | str (s : String)
  | pat (r : Regex)
deriving Repr, DecidableEq

/-- filters.py lines 69-77, check_text: a message with no text, or with
empty text (Python falsy), never matches; a plain string argument s was
compiled on lines 69-70 as the regex of s — interpolated unescaped — wrapped
in both anchors, and is matched with re.Pattern.match; an already compiled
pattern is matched with re.Pattern.match directly, anchored at the start
only.  The result is none when the pattern lies outside the embedded re
fragment. -/
def checkText (arg : TextArg) (m : Message) : Option Bool :=
  match m.text with
  | none => some false
  | some t =>
    if t == "" then some false
    else
      match arg with
      | .str s => (pyCompileFragment s).map (fun r => pyAnchoredMatch r t.data)
      | .pat r => some (r.matchesAtStart t.data)

/-- filters.py lines 91-99, check_callback: the same rule over the callback
payload string. -/
def checkCallbackData (arg : TextArg) (cq : CallbackQuery) : Option Bool :=
  match cq.data with
  | none => some false
  | some d =>
    if d == "" then some false
    else
      match arg with
      | .str s => (pyCompileFragment s).map (fun r => pyAnchoredMatch r d.data)
      | .pat r => some (r.matchesAtStart d.data)

/-- filters.py lines 50-57, check_command: no text or text not starting with a
slash never matches; otherwise the text after the slash is whitespace-split
and the first piece, lowercased, is compared against the lowercased accepted
command names.  Indexing the split result raises IndexError when the text
after the slash is empty or all whitespace. -/
def checkCommand (commands : List String) (m : Message) : Except PyErr Bool :=
  match m.text with
  | none => .ok false
  | some t =>
    if t == "" then .ok false
    else if !(pyStartsWith t "/") then .ok false
    else
      match pySplit (pyDrop1 t) with
      | [] => .error .indexError
      | cmd :: _ => .ok ((commands.map pyLower).contains (pyLower cmd))

/-- filters.py lines 103-119, class State: the stored state label is kept but
check_state ignores it and the message and returns True unconditionally. -/
structure StateFilter where
  state : String
deriving Repr, DecidableEq

/-- filters.py lines 115-117: the body of check_state is a single return True. -/
def StateFilter.check (_f : StateFilter) (_m : Message) : Bool :=
  true

/-! ## Fixtures used by concrete statements -/

/-- A message carrying the given text, used to state filter claims. -/
def msgText (t : String) : Message :=
  ⟨1, 0, ⟨1, "private"⟩, none, some t⟩

/-- A message carrying no text at all. -/
def msgNoText : Message :=
  ⟨1, 0, ⟨1, "private"⟩, none, none⟩

/-- A callback query carrying the given payload. -/
def cqData (d : String) : CallbackQuery :=
  ⟨"1", ⟨1, false, "u"⟩, "ci", some d⟩

/-! ## Dispatcher (dispatcher.py) -/

/-- One entry of the message registration list (dispatcher.py lines 56-60).
The handler callback is identified by a number and its behaviour when invoked
is abstracted by whether it raises; filters and state are optional as in the
source. -/
structure HandlerReg where
  hid : Nat
  filters : Option (Message → Bool)
  state : Option String
  raises : Bool

/-- One entry of the callback-query registration list (dispatcher.py lines
78-81): no state entry is stored for callback registrations. -/
structure CallbackReg where
  hid : Nat
  filters : Option (CallbackQuery → Bool)
  raises : Bool

/-- The dispatcher's in-memory fsm_contexts dict (dispatcher.py line 36),
keyed by user id as read on line 130; a present entry carries that context's
current state label. -/
abbrev FsmContexts := Int → Option (Option String)

/-- dispatcher.py lines 130-132, the state comparison: the context dict is
read at message.from_user.id (raising AttributeError when the message has no
sender) and the registration is skipped unless a context exists whose state
equals the required state exactly. -/
def stateMatch (fsm : FsmContexts) (m : Message) (s : String) : Except PyErr Bool :=
  match m.from_user with
  | none => .error .attributeError
  | some u =>
    match fsm u.id with
    | none => .ok false
    | some ctxState => .ok (ctxState == some s)

/-- dispatcher.py line 129: the stored state entry is consulted only when
truthy — an absent or empty-string required state imposes no condition. -/
def stateGate (fsm : FsmContexts) (m : Message) : Option String → Except PyErr Bool
  | none => .ok true
  | some s => if s == "" then .ok true else stateMatch fsm m s

/-- dispatcher.py lines 124-132: a registration is invoked when its filter
(if any) accepts the message and the state gate passes. -/
def regMatch (fsm : FsmContexts) (m : Message) (r : HandlerReg) : Except PyErr Bool :=
  match r.filters with
  | some f => if f m then stateGate fsm m r.state else .ok false
  | none => stateGate fsm m r.state

/-- dispatcher.py lines 111-138, _process_message: scan every registration in
order, invoking each one whose filter and state match; the result lists the
invoked handlers in order.  A handler exception is caught and logged (lines
134-138), so a registration's raises flag does not influence the scan; an
exception from the state check propagates. -/
def processMessage (fsm : FsmContexts) (regs : List HandlerReg) (m : Message) :
    Except PyErr (List Nat) :=
  match regs with
  | [] => .ok []
  | r :: rest => do
    let b ← regMatch fsm m r
    let l ← processMessage fsm rest m
    .ok (if b then r.hid :: l else l)

/-- dispatcher.py lines 152-154: the filter step of callback dispatch. -/
def cbMatch (cq : CallbackQuery) (r : CallbackReg) : Bool :=
  match r.filters with
  | some f => f cq
  | none => true

/-- dispatcher.py lines 140-160, _process_callback_query: the same scan
without a state step; handler exceptions are caught on lines 156-160. -/
def processCallbackQuery (regs : List CallbackReg) (cq : CallbackQuery) : List Nat :=
  match regs with
  | [] => []
  | r :: rest =>
    if cbMatch cq r then r.hid :: processCallbackQuery rest cq
    else processCallbackQuery rest cq

/-! ## Polling loop (dispatcher.py, start_polling) -/

/-- dispatcher.py lines 164-170, the body of one polling cycle: dispatch the
fetched updates in order inside a single try block.  Whether process_update
raises for a given update is abstracted by the given predicate.  The result
lists the updates for which process_update was invoked: the first raising
update aborts the rest of the batch, the exception being caught by the
cycle-level except and logged. -/
def pollCycle (raises : Nat → Bool) : List Nat → List Nat
  | [] => []
  | u :: rest => if raises u then [u] else u :: pollCycle raises rest

/-- The unbounded polling loop across successive fetched batches: the
catch-all except keeps the while loop alive, so every batch is processed by
its own cycle. -/
def polling (raises : Nat → Bool) (batches : List (List Nat)) : List (List Nat) :=
  batches.map (pollCycle raises)

/-! ## Dispatcher fixtures -/

/-- A concrete sender. -/
def user1 : User := ⟨1, false, "u"⟩

/-- A concrete private chat. -/
def chatP : Chat := ⟨7, "private"⟩

/-- A concrete text message from user1. -/
def msg1 : Message := ⟨10, 0, chatP, some user1, some "hello"⟩

/-- Builds a message with a given chat, optional sender and optional text. -/
def mkMsg (c : Chat) (u : Option User) (t : Option String) : Message :=
  ⟨0, 0, c, u, t⟩

/-- The empty fsm_contexts dict. -/
def fsmEmpty : FsmContexts := fun _ => none

/-- fsm_contexts holding one context for user id 1 in state collecting. -/
def fsmColl : FsmContexts := fun u => if u = 1 then some (some "collecting") else none

/-- An always-matching registration whose handler raises. -/
def regA : HandlerReg := ⟨0, none, none, true⟩

/-- An always-matching registration whose handler returns normally. -/
def regB : HandlerReg := ⟨1, none, none, false⟩

/-- A registration requiring the wildcard state label. -/
def regStar : HandlerReg := ⟨0, none, some "*", false⟩

/-- Processing raises exactly for update 1. -/
def raises1 : Nat → Bool := fun u => u == 1

/-! ## Conversation-state storage (storage.py, fsm.py)

Python dicts are modelled as insertion-ordered association lists; the Redis
key space (string keys to JSON records) is modelled the same way.  The data
mapping holds values of an arbitrary type V. -/

/-- An insertion-ordered string-keyed mapping, as a Python dict or the Redis
key space. -/
abbrev Dict (V : Type) := List (String × V)

/-- Assignment d[k] = v: replace the value in place when the key is present,
else append the new entry at the end (Python dicts and the Redis SET both
preserve existing entry order). -/
def dictSet {V : Type} : Dict V → String → V → Dict V
  | [], k, v => [(k, v)]
  | p :: ps, k, v => if p.1 == k then (k, v) :: ps else p :: dictSet ps k v

/-- Lookup d.get(k): the value at the key, if present. -/
def dictGet {V : Type} : Dict V → String → Option V
  | [], _ => none
  | p :: ps, k => if p.1 == k then some p.2 else dictGet ps k

/-- Deletion of a key (the Redis DELETE command). -/
def dictDelete {V : Type} : Dict V → String → Dict V
  | [], _ => []
  | p :: ps, k => if p.1 == k then dictDelete ps k else p :: dictDelete ps k

/-- Python dict.update(kwargs): assign every entry of kwargs in order into
the receiver — a merge in which kwargs wins on common keys. -/
def dictUpdate {V : Type} (d kwargs : Dict V) : Dict V :=
  kwargs.foldl (fun acc p => dictSet acc p.1 p.2) d

/-- The JSON record one Redis key holds (storage.py lines 164-167): a state
label or null, and a data object. -/
structure StateRec (V : Type) where
  state : Option String
  data : Dict V

/-- The Redis key space restricted to the FSM records. -/
abbrev Redis (V : Type) := Dict (StateRec V)

/-- storage.py lines 26-36, _get_key: prefix, colon, colon-joined parts. -/
def getKey (pfx : String) (parts : List String) : String :=
  pfx ++ ":" ++ String.intercalate ":" parts

/-- The key of one conversation's record: prefix:fsm:user_id:chat_id. -/
def fsmKey (pfx : String) (u c : Int) : String :=
  getKey pfx ["fsm", toString u, toString c]

/-- Python truthiness applied to a stored or incoming state label: both None
and the empty string are falsy and collapse to None (storage.py line 139,
state if truthy else None, and lines 161 and 166, state.value if state else
None). -/
def pyStateTruthy : Option String → Option String
  | some s => if s == "" then none else some s
  | none => none

/-- storage.py lines 120-141, RedisStorage.get_state: None when no record
exists; otherwise line 139 evaluates State(state_data["state"]) when the
stored label is truthy — and fsm.State (fsm.py lines 11-13) is a memberless
str-Enum, so that value lookup raises ValueError for every nonempty label; a
falsy stored label yields (None, data). -/
def RedisStorage.get_state {V : Type} (pfx : String) (db : Redis V) (u c : Int) :
    Except PyErr (Option (Option String × Dict V)) :=
  match dictGet db (fsmKey pfx u c) with
  | some r =>
    match pyStateTruthy r.state with
    | some _ => .error .valueError
    | none => .ok (some (none, r.data))
  | none => .ok none

/-- storage.py lines 143-167, RedisStorage.set_state: read-modify-write; when
the record exists only its state label is replaced, preserving the data; when
absent a record with empty data is created. -/
def RedisStorage.set_state {V : Type} (pfx : String) (db : Redis V) (u c : Int)
    (s : Option String) : Redis V :=
  let k := fsmKey pfx u c
  match dictGet db k with
  | some r => dictSet db k ⟨pyStateTruthy s, r.data⟩
  | none => dictSet db k ⟨pyStateTruthy s, []⟩

/-- storage.py lines 169-193, RedisStorage.set_data: read-modify-write; when
the record exists only its data object is replaced, preserving the state;
when absent a record with null state is created. -/
def RedisStorage.set_data {V : Type} (pfx : String) (db : Redis V) (u c : Int)
    (d : Dict V) : Redis V :=
  let k := fsmKey pfx u c
  match dictGet db k with
  | some r => dictSet db k ⟨r.state, d⟩
  | none => dictSet db k ⟨none, d⟩

/-- storage.py lines 195-204, RedisStorage.clear: delete the record. -/
def RedisStorage.clear {V : Type} (pfx : String) (db : Redis V) (u c : Int) : Redis V :=
  dictDelete db (fsmKey pfx u c)

/-- fsm.py lines 15-49, FSMContext: the in-memory mirror of one
conversation's state and data, bound to a storage key. -/
structure FSMContext (V : Type) where
  user_id : Int
  chat_id : Int
  state : Option String
  data : Dict V

/-- fsm.py lines 85-93, FSMContext.update_data: merge the keyword arguments
into the local data, then persist the whole mapping through set_data. -/
def FSMContext.update_data {V : Type} (pfx : String) (ctx : FSMContext V)
    (db : Redis V) (kwargs : Dict V) : FSMContext V × Redis V :=
  let d := dictUpdate ctx.data kwargs
  (⟨ctx.user_id, ctx.chat_id, ctx.state, d⟩,
    RedisStorage.set_data pfx db ctx.user_id ctx.chat_id d)

/-- fsm.py lines 95-102, FSMContext.get_data: returns the local data. -/
def FSMContext.get_data {V : Type} (ctx : FSMContext V) : Dict V :=
  ctx.data

/-- fsm.py lines 104-108, FSMContext.clear: reset the local state and data
and delete the stored record. -/
def FSMContext.clear {V : Type} (pfx : String) (ctx : FSMContext V) (db : Redis V) :
    FSMContext V × Redis V :=
  (⟨ctx.user_id, ctx.chat_id, none, []⟩,
    RedisStorage.clear pfx db ctx.user_id ctx.chat_id)

/-! ## Updates and middleware (types.py, middleware.py, dispatcher.py) -/

/-- types.py lines 195-211, class Update: update_id is required and every
other field optional.  The verified code paths read only message and
callback_query; the remaining optional payload fields are never consulted by
them. -/
structure Update where
  update_id : Int
  message : Option Message
  callback_query : Option CallbackQuery

/-- The field names the Update model declares (types.py lines 195-211). -/
def updateFieldNames : List String :=
  ["update_id", "message", "edited_message", "channel_post",
   "edited_channel_post", "inline_query", "chosen_inline_result",
   "callback_query", "shipping_query", "pre_checkout_query", "poll",
   "poll_answer", "my_chat_member", "chat_member", "chat_join_request"]

/-- Pydantic attribute access on an Update: reading a name that is not a
declared field raises AttributeError. -/
def updateGetattrRaises (name : String) : Bool :=
  !(updateFieldNames.contains name)

/-- middleware.py lines 67-83, ThrottlingMiddleware.process_update: the first
statement evaluates update.from_user, a field the Update model does not
declare, so pydantic raises AttributeError before anything else runs; the
rate-limit bookkeeping below it is unreachable for this model (it would next
read update.date, also undeclared).  The unreachable continuation is
rendered as returning the untouched last_update dict. -/
def ThrottlingMiddleware.process_update (rate_limit : Int) (last_update : Dict Int)
    (u : Update) : Except PyErr (Dict Int) :=
  if updateGetattrRaises "from_user" then .error .attributeError
  else .ok last_update

/-- A middleware's process_update hook as the dispatcher sees it: it may
raise. -/
abbrev Middleware := Update → Except PyErr Unit

/-- dispatcher.py lines 99-101: run every middleware in registration order;
an exception propagates immediately. -/
def runMiddlewares : List Middleware → Update → Except PyErr Unit
  | [], _ => .ok ()
  | mw :: rest, u => do
    mw u
    runMiddlewares rest u

/-- dispatcher.py lines 92-109, process_update: middlewares first, then the
message branch, then the callback branch (both may run for one update); the
result carries the invoked message and callback handler ids. -/
def Dispatcher.process_update (mws : List Middleware) (fsm : FsmContexts)
    (regs : List HandlerReg) (cbs : List CallbackReg) (u : Update) :
    Except PyErr (List Nat × List Nat) := do
  runMiddlewares mws u
  let msgIds ← match u.message with
    | some m => processMessage fsm regs m
    | none => .ok []
  let cbIds := match u.callback_query with
    | some cq => processCallbackQuery cbs cq
    | none => []
  .ok (msgIds, cbIds)

/-- A ThrottlingMiddleware instance as installed in a dispatcher's middleware
list. -/
def throttlingMw (rate_limit : Int) (last_update : Dict Int) : Middleware :=
  fun u => (ThrottlingMiddleware.process_update rate_limit last_update u).map (fun _ => ())

/-! ## Webhook (webhook.py) -/

/-- An incoming webhook request: the value of the secret-token header when
the request carries it, and the outcome of reading and validating the JSON
body into an Update. -/
structure WebhookRequest where
  secretHeader : Option String
  body : Except PyErr Update

/-- webhook.py lines 70-81, the try block of _handle_webhook: parse the body
into an Update and dispatch it, answering 200 on success and 500 when
parsing or dispatch raises.  The flag records whether
dispatcher.process_update was invoked. -/
def webhookBody (mws : List Middleware) (fsm : FsmContexts) (regs : List HandlerReg)
    (cbs : List CallbackReg) (req : WebhookRequest) : Nat × Bool :=
  match req.body with
  | .error _ => (500, false)
  | .ok u =>
    match Dispatcher.process_update mws fsm regs cbs u with
    | .ok _ => (200, true)
    | .error _ => (500, true)

/-- webhook.py lines 55-81, _handle_webhook: when a truthy secret token is
configured and the request's header does not equal it byte for byte, answer
403 without touching the body; otherwise run the parse-and-dispatch body. -/
def handleWebhook (secret_token : Option String) (mws : List Middleware)
    (fsm : FsmContexts) (regs : List HandlerReg) (cbs : List CallbackReg)
    (req : WebhookRequest) : Nat × Bool :=
  match secret_token with
  | some tok =>
    if tok == "" then webhookBody mws fsm regs cbs req
    else if !(req.secretHeader == some tok) then (403, false)
    else webhookBody mws fsm regs cbs req
  | none => webhookBody mws fsm regs cbs req

/-- A request carrying no secret header, with a body that would fail to
parse. -/
def reqNoHeader : WebhookRequest := ⟨none, .error .attributeError⟩

/-! ## Haversine distance (location.py)

The floating-point trigonometry of calculate_distance is modelled over the
real numbers. -/

/-- Python math.atan2 over the reals. -/
noncomputable def pyAtan2 (y x : ℝ) : ℝ :=
  if 0 < x then Real.arctan (y / x)
  else if x < 0 then
    if 0 ≤ y then Real.arctan (y / x) + Real.pi else Real.arctan (y / x) - Real.pi
  else
    if 0 < y then Real.pi / 2 else if y < 0 then -(Real.pi / 2) else 0

/-- Python math.radians: degrees to radians. -/
noncomputable def pyRadians (d : ℝ) : ℝ := d * Real.pi / 180

/-- location.py lines 61-66, the locals of calculate_distance: with all four
coordinates converted to radians, dlat and dlon their differences, this is
the local a = sin(dlat/2)**2 + cos(lat1) * cos(lat2) * sin(dlon/2)**2. -/
noncomputable def haversineA (lat1 lon1 lat2 lon2 : ℝ) : ℝ :=
  Real.sin ((pyRadians lat2 - pyRadians lat1) / 2) ^ 2 +
    Real.cos (pyRadians lat1) * Real.cos (pyRadians lat2) *
      Real.sin ((pyRadians lon2 - pyRadians lon1) / 2) ^ 2

/-- location.py lines 40-69, calculate_distance: R = 6371 km is the fixed
Earth radius, c = 2 * atan2(sqrt(a), sqrt(1 - a)), and the result is R * c,
in kilometres. -/
noncomputable def calculate_distance (lat1 lon1 lat2 lon2 : ℝ) : ℝ :=
  6371 * (2 * pyAtan2 (Real.sqrt (haversineA lat1 lon1 lat2 lon2))
    (Real.sqrt (1 - haversineA lat1 lon1 lat2 lon2)))

/-- C6: the State filter ignores the configured state label, the message and
any stored conversation state: check_state returns True for every message, so
as a filter it matches unconditionally. -/
theorem state_filter_always_true (f : StateFilter) (m : Message) :
    f.check m = true := rfl

/-- C7: the Command filter matches exactly when the message text starts with a
slash and the first whitespace-delimited token of the text with the leading
slash stripped, compared case-insensitively, is one of the accepted names; in
particular with commands ["start"], "/Start" matches, "/start extra" matches,
and "start" does not match (nor does a message without text). -/
theorem command_filter_spec :
    (∀ (commands : List String) (t : String),
      checkCommand commands (msgText t) = .ok true ↔
        pyStartsWith t "/" = true ∧
        ∃ tok, (pySplit (pyDrop1 t)).head? = some tok ∧
          (commands.map pyLower).contains (pyLower tok) = true) ∧
    checkCommand ["start"] (msgText "/Start") = .ok true ∧
    checkCommand ["start"] (msgText "/start extra") = .ok true ∧
    checkCommand ["start"] (msgText "start") = .ok false ∧
    checkCommand ["start"] msgNoText = .ok false := by
  refine ⟨?_, rfl, rfl, rfl, rfl⟩
  intro commands t
  simp only [checkCommand, msgText]
  by_cases h0 : t = ""
  · subst h0
    simp [show pyStartsWith "" "/" = false from rfl]
  · simp only [h0, beq_iff_eq, if_false]
    by_cases hs : pyStartsWith t "/" = true
    · simp only [hs, Bool.not_true, if_false]
      cases hsplit : pySplit (pyDrop1 t) with
      | nil => simp [hsplit, hs]
      | cons cmd rest => simp [hsplit, hs]
    · simp [hs, Bool.eq_false_iff.mpr hs]

/-- The failing regex matches no word. -/
theorem matchesFull_fail (u : List Char) : Regex.fail.matchesFull u = false := by
  induction u with
  | nil => rfl
  | cons c cs ih => simpa [Regex.matchesFull, Regex.deriv] using ih

/-- Full match distributes over alternation. -/
theorem matchesFull_alt (u : List Char) : ∀ a b : Regex,
    (Regex.alt a b).matchesFull u = (a.matchesFull u || b.matchesFull u) := by
  induction u with
  | nil => intro a b; rfl
  | cons c cs ih =>
    intro a b
    simpa [Regex.matchesFull, Regex.deriv] using ih (a.deriv c) (b.deriv c)

/-- A sequence headed by the failing regex matches no word. -/
theorem matchesFull_seq_fail (u : List Char) : ∀ r : Regex,
    (Regex.seq Regex.fail r).matchesFull u = false := by
  induction u with
  | nil => intro r; rfl
  | cons c cs ih =>
    intro r
    simpa [Regex.matchesFull, Regex.deriv, Regex.nullable] using ih r

/-- A sequence headed by the empty regex matches what its tail matches. -/
theorem matchesFull_seq_eps (u : List Char) : ∀ r : Regex,
    (Regex.seq Regex.eps r).matchesFull u = r.matchesFull u := by
  induction u with
  | nil => intro r; simp [Regex.matchesFull, Regex.nullable]
  | cons c cs ih =>
    intro r
    simp [Regex.matchesFull, Regex.deriv, Regex.nullable, matchesFull_alt,
      matchesFull_seq_fail]

/-- The literal regex of a word fully matches exactly that word. -/
theorem matchesFull_lit (l : List Char) : ∀ u : List Char,
    (litRegex l).matchesFull u = true ↔ u = l := by
  induction l with
  | nil =>
    intro u
    cases u with
    | nil => simp [litRegex, Regex.matchesFull, Regex.nullable]
    | cons c cs => simp [litRegex, Regex.matchesFull, Regex.deriv, matchesFull_fail]
  | cons x xs ih =>
    intro u
    cases u with
    | nil => simp [litRegex, Regex.matchesFull, Regex.nullable]
    | cons c cs =>
      by_cases hxc : x = c
      · subst hxc
        simpa [litRegex, Regex.matchesFull, Regex.deriv, Regex.nullable,
          matchesFull_seq_eps] using ih cs
      · have hxc2 : (x == c) = false := by simpa using hxc
        simp [litRegex, Regex.matchesFull, Regex.deriv, Regex.nullable, hxc2,
          matchesFull_seq_fail, Ne.symm hxc]

/-- Start-anchored match distributes over alternation. -/
theorem matchesAtStart_alt (u : List Char) : ∀ a b : Regex,
    (Regex.alt a b).matchesAtStart u = (a.matchesAtStart u || b.matchesAtStart u) := by
  induction u with
  | nil => intro a b; rfl
  | cons c cs ih =>
    intro a b
    simp only [Regex.matchesAtStart, Regex.deriv, Regex.nullable,
      ih (a.deriv c) (b.deriv c)]
    cases a.nullable <;> cases b.nullable <;> simp

/-- A sequence headed by the failing regex matches no prefix. -/
theorem matchesAtStart_seq_fail (u : List Char) : ∀ r : Regex,
    (Regex.seq Regex.fail r).matchesAtStart u = false := by
  induction u with
  | nil => intro r; rfl
  | cons c cs ih =>
    intro r
    simpa [Regex.matchesAtStart, Regex.deriv, Regex.nullable] using ih r

/-- A sequence headed by the empty regex prefix-matches what its tail does. -/
theorem matchesAtStart_seq_eps (u : List Char) : ∀ r : Regex,
    (Regex.seq Regex.eps r).matchesAtStart u = r.matchesAtStart u := by
  induction u with
  | nil => intro r; simp [Regex.matchesAtStart, Regex.nullable]
  | cons c cs ih =>
    intro r
    simp [Regex.matchesAtStart, Regex.deriv, Regex.nullable, matchesAtStart_alt,
      matchesAtStart_seq_fail]

/-- The literal regex of a word prefix-matches exactly its extensions. -/
theorem matchesAtStart_lit (l : List Char) : ∀ u : List Char,
    (litRegex l).matchesAtStart u = true ↔ ∃ rest, u = l ++ rest := by
  induction l with
  | nil =>
    intro u
    cases u with
    | nil => simp [litRegex, Regex.matchesAtStart, Regex.nullable]
    | cons c cs => simp [litRegex, Regex.matchesAtStart, Regex.nullable]
  | cons x xs ih =>
    intro u
    cases u with
    | nil => simp [litRegex, Regex.matchesAtStart, Regex.nullable]
    | cons c cs =>
      by_cases hxc : x = c
      · subst hxc
        simpa [litRegex, Regex.matchesAtStart, Regex.deriv, Regex.nullable,
          matchesAtStart_seq_eps] using ih cs
      · have hxc2 : (x == c) = false := by simpa using hxc
        simp [litRegex, Regex.matchesAtStart, Regex.deriv, Regex.nullable, hxc2,
          matchesAtStart_seq_fail, Ne.symm hxc]

/-- On a pattern of purely literal characters, the fragment translation
yields exactly the literal atoms in reverse order, ahead of the
accumulator. -/
theorem pyAtomsAux_lit : ∀ (l : List Char) (acc : List Regex),
    (∀ c ∈ l, isLitChar c = true) →
    pyAtomsAux l acc = some ((l.map Regex.ch).reverse ++ acc) := by
  intro l
  induction l with
  | nil => intro acc h; simp [pyAtomsAux]
  | cons c rest ih =>
    intro acc h
    have hc : isLitChar c = true := h c (List.mem_cons_self ..)
    have hrest : ∀ d ∈ rest, isLitChar d = true :=
      fun d hd => h d (List.mem_cons_of_mem _ hd)
    have hb : (c == '.' || c == '?' || c == '*' || c == '+' || c == '\\' ||
        pyMetaChar c) = false := by
      have h7 := hc
      unfold isLitChar at h7
      cases hh : (c == '.' || c == '?' || c == '*' || c == '+' || c == '\\' ||
          pyMetaChar c) with
      | false => rfl
      | true => rw [hh] at h7; exact absurd h7 (by decide)
    obtain ⟨h12345, h6⟩ := Bool.or_eq_false_iff.mp hb
    obtain ⟨h1234, h5⟩ := Bool.or_eq_false_iff.mp h12345
    obtain ⟨h123, h4⟩ := Bool.or_eq_false_iff.mp h1234
    obtain ⟨h12, h3⟩ := Bool.or_eq_false_iff.mp h123
    obtain ⟨h1, h2⟩ := Bool.or_eq_false_iff.mp h12
    rw [pyAtomsAux.eq_def]
    simp [h1, h2, h3, h4, h5, h6, ih (Regex.ch c :: acc) hrest,
      List.reverse_cons, List.append_assoc]

/-- Compiling a metacharacter-free pattern string yields its literal regex. -/
theorem pyCompileFragment_lit (s : String) (h : ∀ c ∈ s.data, isLitChar c = true) :
    pyCompileFragment s = some (litRegex s.data) := by
  simp [pyCompileFragment, pyAtomsAux_lit s.data [] h, litRegex]

/-- The anchored-pattern semantics of a literal word: the text is the word,
or the word followed by one final newline. -/
theorem pyAnchoredMatch_lit (l u : List Char) :
    pyAnchoredMatch (litRegex l) u = true ↔ (u = l ∨ u = l ++ ['\n']) := by
  unfold pyAnchoredMatch
  rw [Bool.or_eq_true, Bool.and_eq_true, matchesFull_lit, matchesFull_lit, beq_iff_eq]
  apply or_congr Iff.rfl
  constructor
  · rintro ⟨h1, h2⟩
    have hne : u ≠ [] := by rintro rfl; simp at h1
    have h3 : u.getLast hne = '\n' := by
      have h4 := List.getLast?_eq_getLast u hne
      rw [h1] at h4
      exact (Option.some.inj h4).symm
    conv_lhs => rw [← List.dropLast_append_getLast hne]
    rw [h2, h3]
  · rintro rfl
    exact ⟨List.getLast?_concat .., List.dropLast_concat ..⟩

/-- The start-anchored match of a literal pattern, over strings: the pattern
heads the text. -/
theorem matchesAtStart_lit_str (p t : String) :
    (litRegex p.data).matchesAtStart t.data = true ↔ ∃ r, t = p ++ r := by
  rw [matchesAtStart_lit]
  constructor
  · rintro ⟨rest, hrest⟩
    exact ⟨⟨rest⟩, String.ext (by rw [String.data_append]; exact hrest)⟩
  · rintro ⟨r, rfl⟩
    exact ⟨r.data, by rw [String.data_append]⟩

/-- C8 counterexample: a Text filter built from the already compiled literal
pattern ab matches the text abc, although abc is neither an exact match of ab
nor a full match of that pattern — re.Pattern.match anchors only at the
start, giving a prefix match for a compiled pattern. -/
theorem text_filter_prefix_match_counterexample :
    checkText (TextArg.pat (litRegex "ab".data)) (msgText "abc") = some true ∧
      ("abc" : String) ≠ "ab" :=
  ⟨rfl, by decide⟩

/-- C8 amended: a Text filter built from a plain string s interpolates s
unescaped into the anchored pattern, so s is interpreted as a regular
expression.  When s contains no metacharacters the filter matches exactly
the nonempty text equal to s or to s followed by one final newline (the
dollar anchor also accepts a trailing newline); metacharacters stay active —
the string a.c matches axc, and ab? matches a.  A filter built from an
already compiled (literal) pattern performs a prefix match, not a full
match; a message without text never matches.  The same rules hold for
CallbackData over the callback payload. -/
theorem text_filter_match_rule :
    (∀ s t : String, (∀ c ∈ s.data, isLitChar c = true) →
      (checkText (TextArg.str s) (msgText t) = some true ↔
        t ≠ "" ∧ (t = s ∨ t = s ++ "\n"))) ∧
    (∀ p t : String,
      checkText (TextArg.pat (litRegex p.data)) (msgText t) = some true ↔
        t ≠ "" ∧ ∃ r, t = p ++ r) ∧
    (∀ arg, checkText arg msgNoText = some false) ∧
    (checkText (TextArg.str "a.c") (msgText "axc") = some true ∧
      ("axc" : String) ≠ "a.c") ∧
    (checkText (TextArg.str "ab?") (msgText "a") = some true ∧
      ("a" : String) ≠ "ab?") ∧
    (∀ s d : String, (∀ c ∈ s.data, isLitChar c = true) →
      (checkCallbackData (TextArg.str s) (cqData d) = some true ↔
        d ≠ "" ∧ (d = s ∨ d = s ++ "\n"))) ∧
    (∀ p d : String,
      checkCallbackData (TextArg.pat (litRegex p.data)) (cqData d) = some true ↔
        d ≠ "" ∧ ∃ r, d = p ++ r) := by
  have hdata : ∀ s t : String,
      (t.data = s.data ∨ t.data = s.data ++ ['\n']) ↔
        (t = s ∨ t = s ++ "\n") := by
    intro s t
    apply or_congr
    · exact ⟨fun h => String.ext h, fun h => by rw [h]⟩
    · constructor
      · intro h
        apply String.ext
        rw [String.data_append]
        exact h
      · intro h
        rw [h, String.data_append]
  have hstr : ∀ s t : String, (∀ c ∈ s.data, isLitChar c = true) → t ≠ "" →
      ((pyCompileFragment s).map (fun r => pyAnchoredMatch r t.data) = some true ↔
        (t = s ∨ t = s ++ "\n")) := by
    intro s t h _
    rw [pyCompileFragment_lit s h]
    rw [show ((some (litRegex s.data)).map (fun r => pyAnchoredMatch r t.data)) =
      some (pyAnchoredMatch (litRegex s.data) t.data) from rfl]
    rw [Option.some.injEq]
    rw [pyAnchoredMatch_lit, hdata]
  refine ⟨?_, ?_, fun arg => rfl, ⟨rfl, by decide⟩, ⟨rfl, by decide⟩, ?_, ?_⟩
  · intro s t h
    by_cases h0 : t = ""
    · subst h0
      simp [checkText, msgText]
    · have h02 : (t == "") = false := by simpa using h0
      simp only [checkText, msgText, h02, Bool.false_eq_true, if_false]
      rw [hstr s t h h0]
      simp [h0]
  · intro p t
    by_cases h0 : t = ""
    · subst h0
      simp [checkText, msgText]
    · have h02 : (t == "") = false := by simpa using h0
      simp only [checkText, msgText, h02, Bool.false_eq_true, if_false,
        Option.some.injEq]
      rw [matchesAtStart_lit_str]
      simp [h0]
  · intro s d h
    by_cases h0 : d = ""
    · subst h0
      simp [checkCallbackData, cqData]
    · have h02 : (d == "") = false := by simpa using h0
      simp only [checkCallbackData, cqData, h02, Bool.false_eq_true, if_false]
      rw [hstr s d h h0]
      simp [h0]
  · intro p d
    by_cases h0 : d = ""
    · subst h0
      simp [checkCallbackData, cqData]
    · have h02 : (d == "") = false := by simpa using h0
      simp only [checkCallbackData, cqData, h02, Bool.false_eq_true, if_false,
        Option.some.injEq]
      rw [matchesAtStart_lit_str]
      simp [h0]

/-- Witness for the amended C8 at a concrete input: the metacharacter-free
string hello matches exactly itself or itself plus a trailing newline. -/
theorem text_filter_match_rule_witness :
    checkText (TextArg.str "hello") (msgText "hello") = some true ↔
      ("hello" : String) ≠ "" ∧
        (("hello" : String) = "hello" ∨ ("hello" : String) = "hello" ++ "\n") :=
  text_filter_match_rule.1 "hello" "hello" (by decide)

/-- C1 counterexample: with two always-matching registrations where the first
handler raises, _process_message still invokes the second handler — the
invoked list is [0, 1], not the [0] that first-match-and-stop semantics would
give.  There is no break or return after the handler call. -/
theorem dispatch_not_first_match_stop :
    processMessage fsmEmpty [regA, regB] msg1 = .ok [0, 1] ∧
      ([0, 1] : List Nat) ≠ [0] :=
  ⟨rfl, by decide⟩

/-- C1 amended: message dispatch is fan-out, not first-match: after a
matching registration is invoked — whether its handler returns normally or
raises, the exception being caught and logged — the scan continues, and
dispatch over the remaining registrations proceeds exactly as it would for
the shorter list; callback-query dispatch behaves the same way. -/
theorem dispatch_fan_out :
    (∀ (fsm : FsmContexts) (m : Message) (r : HandlerReg) (rest : List HandlerReg),
      regMatch fsm m r = .ok true →
        processMessage fsm (r :: rest) m =
          (processMessage fsm rest m).map (fun l => r.hid :: l)) ∧
    (∀ (cq : CallbackQuery) (r : CallbackReg) (rest : List CallbackReg),
      cbMatch cq r = true →
        processCallbackQuery (r :: rest) cq = r.hid :: processCallbackQuery rest cq) := by
  constructor
  · intro fsm m r rest h
    simp only [processMessage, h]
    cases hrest : processMessage fsm rest m with
    | ok l => rfl
    | error e => rfl
  · intro cq r rest h
    simp [processCallbackQuery, h]

/-- Witness for the amended C1 at a concrete input: both registrations match,
the first handler raises, and the dispatch of the tail is extended, not cut
off. -/
theorem dispatch_fan_out_witness :
    processMessage fsmEmpty (regA :: [regB]) msg1 =
      (processMessage fsmEmpty [regB] msg1).map (fun l => regA.hid :: l) :=
  dispatch_fan_out.1 fsmEmpty msg1 regA [regB] rfl

/-- C2 counterexample: a registration requiring state "*" and a conversation
context in state collecting for the sender: the claimed wildcard rule (any
non-none state matches "*") would invoke handler 0, but _process_message
compares for exact equality, finds that collecting differs from "*", and
invokes nothing. -/
theorem state_wildcard_not_supported :
    processMessage fsmColl [regStar] msg1 = .ok [] ∧ ([] : List Nat) ≠ [0] :=
  ⟨rfl, by decide⟩

/-- C2 amended: the state condition reads the dispatcher's in-memory
fsm_contexts dict keyed by the sender's user id alone — the chat id plays no
role and no storage fetch happens; a registration with a nonempty required
state matches exactly when an entry exists for that user id whose state
equals the required label ("*" has no special meaning); a registration with
no required state imposes no state condition; requiring a state of a message
without sender raises AttributeError. -/
theorem state_gate_exact_equality :
    (∀ (fsm : FsmContexts) (c : Chat) (u : User) (t : Option String) (s : String),
      s ≠ "" →
      (regMatch fsm (mkMsg c (some u) t) ⟨0, none, some s, false⟩ = .ok true ↔
        fsm u.id = some (some s))) ∧
    (∀ (fsm : FsmContexts) (c : Chat) (t : Option String) (s : String),
      s ≠ "" →
      regMatch fsm (mkMsg c none t) ⟨0, none, some s, false⟩ = .error .attributeError) ∧
    (∀ (fsm : FsmContexts) (m : Message) (i : Nat) (rs : Bool),
      regMatch fsm m ⟨i, none, none, rs⟩ = .ok true) := by
  refine ⟨?_, ?_, ?_⟩
  · intro fsm c u t s hs
    have hs' : (s == "") = false := by simpa using hs
    simp only [regMatch, stateGate, hs', if_false, stateMatch, mkMsg]
    cases hctx : fsm u.id with
    | none => simp [hctx]
    | some ctxState => simp [hctx]
  · intro fsm c t s hs
    have hs' : (s == "") = false := by simpa using hs
    simp [regMatch, stateGate, hs', stateMatch, mkMsg]
  · intro fsm m i rs
    rfl

/-- Witness for the amended C2 at a concrete input: the exact-equality rule,
applied to the collecting context of user 1. -/
theorem state_gate_exact_equality_witness :
    regMatch fsmColl (mkMsg chatP (some user1) (some "hi"))
        ⟨0, none, some "collecting", false⟩ = .ok true ↔
      fsmColl user1.id = some (some "collecting") :=
  state_gate_exact_equality.1 fsmColl chatP user1 (some "hi") "collecting" (by decide)

/-- C3 counterexample: in the batch [1, 2] where processing update 1 raises,
update 2 is never dispatched — the try block wraps the whole for loop over
the batch, so the exception aborts the remaining updates of the cycle. -/
theorem polling_batch_abandoned_after_raise :
    pollCycle raises1 [1, 2] = [1] ∧ 2 ∉ pollCycle raises1 [1, 2] :=
  ⟨rfl, by decide⟩

/-- C3 amended: within one polling cycle the updates before the first raising
update are dispatched in order, the raising update is attempted, and the rest
of the batch is dropped; the loop itself survives: every later fetched batch
is still processed by its own cycle. -/
theorem poll_cycle_stops_at_raise :
    ∀ (raises : Nat → Bool) (pre : List Nat) (u : Nat) (post : List Nat),
      (∀ v ∈ pre, raises v = false) → raises u = true →
      pollCycle raises (pre ++ u :: post) = pre ++ [u] ∧
      ∀ batches, polling raises ((pre ++ u :: post) :: batches) =
        (pre ++ [u]) :: batches.map (pollCycle raises) := by
  intro raises pre u post
  induction pre with
  | nil =>
    intro _ hu
    refine ⟨by simp [pollCycle, hu], fun batches => ?_⟩
    simp [polling, pollCycle, hu]
  | cons v vs ih =>
    intro hpre hu
    have hv : raises v = false := hpre v (List.mem_cons_self ..)
    have ihc := (ih (fun w hw => hpre w (List.mem_cons_of_mem _ hw)) hu).1
    refine ⟨by simp [pollCycle, hv, ihc], fun batches => ?_⟩
    simp [polling, pollCycle, hv, ihc]

/-- Witness for the amended C3 at a concrete input: batch [0, 1, 2] with
update 1 raising dispatches [0, 1] and later batches still run. -/
theorem poll_cycle_stops_at_raise_witness :
    pollCycle raises1 ([0] ++ 1 :: [2]) = [0] ++ [1] ∧
      ∀ batches, polling raises1 (([0] ++ 1 :: [2]) :: batches) =
        ([0] ++ [1]) :: batches.map (pollCycle raises1) :=
  poll_cycle_stops_at_raise raises1 [0] 1 [2] (by decide) rfl

/-- Reading a key straight after deleting it yields nothing. -/
theorem dictGet_dictDelete_self {V : Type} (d : Dict V) (k : String) :
    dictGet (dictDelete d k) k = none := by
  induction d with
  | nil => simp [dictDelete, dictGet]
  | cons p ps ih =>
    by_cases h : p.1 = k
    · simp [dictDelete, h, ih]
    · have h' : (p.1 == k) = false := by simpa using h
      simp [dictDelete, dictGet, h', ih]

/-- C4: the claimed round trip is what the storage docstrings promise, but
get_state can never return a nonempty label: storage.py line 139 looks the
stored label up in the memberless str-Enum fsm.State, which raises ValueError
for every nonempty label.  At the failing input — set_state(1, 2, "st") on an
empty store followed by get_state(1, 2) — the code raises ValueError instead
of returning ("st", emptydata).  The parts of the claim not involving a
nonempty stored label do hold: update_data merges rather than replaces, and
clear followed by get_state returns none. -/
theorem fsm_get_state_raises :
    RedisStorage.get_state "telegrampy"
        (RedisStorage.set_state "telegrampy" ([] : Redis Int) 1 2 (some "st")) 1 2 =
      .error .valueError ∧
    (FSMContext.get_data
        (FSMContext.update_data "telegrampy"
          (FSMContext.update_data "telegrampy" (⟨1, 2, none, []⟩ : FSMContext Int)
            [] [("x", 1)]).1
          (FSMContext.update_data "telegrampy" (⟨1, 2, none, []⟩ : FSMContext Int)
            [] [("x", 1)]).2 [("y", 2)]).1 = [("x", 1), ("y", 2)]) ∧
    (∀ (V : Type) (pfx : String) (ctx : FSMContext V) (db : Redis V),
      RedisStorage.get_state pfx (FSMContext.clear pfx ctx db).2
        ctx.user_id ctx.chat_id = .ok none) := by
  refine ⟨rfl, rfl, ?_⟩
  intro V pfx ctx db
  simp [FSMContext.clear, RedisStorage.clear, RedisStorage.get_state,
    dictGet_dictDelete_self]

/-- A middleware error anywhere in the list aborts process_update with that
error before any handler dispatch. -/
theorem process_update_error_of_middlewares (mws : List Middleware) (fsm : FsmContexts)
    (regs : List HandlerReg) (cbs : List CallbackReg) (u : Update) (e : PyErr)
    (h : runMiddlewares mws u = .error e) :
    Dispatcher.process_update mws fsm regs cbs u = .error e := by
  simp only [Dispatcher.process_update, h]
  rfl

/-- With a ThrottlingMiddleware anywhere in the middleware list, the
middleware pass always ends in an error. -/
theorem runMiddlewares_throttling_error (rate_limit : Int) (last : Dict Int)
    (pre post : List Middleware) (u : Update) :
    ∃ e, runMiddlewares (pre ++ throttlingMw rate_limit last :: post) u = .error e := by
  induction pre with
  | nil => exact ⟨.attributeError, rfl⟩
  | cons mw rest ih =>
    cases hmw : mw u with
    | error e => exact ⟨e, by simp only [runMiddlewares, List.cons_append, hmw]; rfl⟩
    | ok _ =>
      obtain ⟨e, he⟩ := ih
      exact ⟨e, by simp only [runMiddlewares, List.cons_append, hmw]; exact he⟩

/-- C5: ThrottlingMiddleware.process_update raises AttributeError for every
update, because the Update model declares neither a from_user field nor a
date field; and since middleware exceptions propagate out of
Dispatcher.process_update, a dispatcher with a ThrottlingMiddleware installed
anywhere in its middleware list aborts the dispatch of every update: no
handler ever runs. -/
theorem throttling_middleware_aborts_dispatch :
    (∀ (rate : Int) (last : Dict Int) (u : Update),
      ThrottlingMiddleware.process_update rate last u = .error .attributeError) ∧
    (updateFieldNames.contains "from_user" = false ∧
      updateFieldNames.contains "date" = false) ∧
    (∀ (rate : Int) (last : Dict Int) (pre post : List Middleware)
       (fsm : FsmContexts) (regs : List HandlerReg) (cbs : List CallbackReg)
       (u : Update),
      ∃ e, Dispatcher.process_update (pre ++ throttlingMw rate last :: post)
        fsm regs cbs u = .error e) := by
  refine ⟨fun _ _ _ => rfl, ⟨rfl, rfl⟩, ?_⟩
  intro rate last pre post fsm regs cbs u
  obtain ⟨e, he⟩ := runMiddlewares_throttling_error rate last pre post u
  exact ⟨e, process_update_error_of_middlewares _ _ _ _ _ _ he⟩

/-- C9: with a nonempty configured secret token, a request whose secret
header is missing or differs is answered 403 and the dispatcher is never
invoked for it; a request whose header equals the token byte for byte
proceeds to the parse-and-dispatch body. -/
theorem webhook_secret_gate :
    ∀ (tok : String) (mws : List Middleware) (fsm : FsmContexts)
      (regs : List HandlerReg) (cbs : List CallbackReg) (req : WebhookRequest),
      tok ≠ "" →
      (req.secretHeader ≠ some tok →
        handleWebhook (some tok) mws fsm regs cbs req = (403, false)) ∧
      (req.secretHeader = some tok →
        handleWebhook (some tok) mws fsm regs cbs req = webhookBody mws fsm regs cbs req) := by
  intro tok mws fsm regs cbs req htok
  have htok' : (tok == "") = false := by simpa using htok
  constructor
  · intro hne
    have hne' : (req.secretHeader == some tok) = false := by simpa using hne
    simp [handleWebhook, htok', hne']
  · intro heq
    simp [handleWebhook, htok', heq]

/-- Witness for C9 at a concrete input: a configured token and a request
without the secret header is rejected with 403 and no dispatch. -/
theorem webhook_secret_gate_witness :
    handleWebhook (some "s3") [] fsmEmpty [] [] reqNoHeader = (403, false) :=
  (webhook_secret_gate "s3" [] fsmEmpty [] [] reqNoHeader (by decide)).1 (by decide)

/-- C10: the haversine distance function is pure — a function of its four
coordinates — and satisfies: distance from (0,0) to (0,0) is 0; distance
from (0,0) to (0,90) is the quarter great-circle 6371·π/2, within 0.1 km of
10007.5 km; and distance is symmetric in its two coordinate pairs. -/
theorem haversine_properties :
    calculate_distance 0 0 0 0 = 0 ∧
    |calculate_distance 0 0 0 90 - 10007.5| < 0.1 ∧
    ∀ lat1 lon1 lat2 lon2,
      calculate_distance lat1 lon1 lat2 lon2 = calculate_distance lat2 lon2 lat1 lon1 := by
  have h0 : pyRadians 0 = 0 := by rw [pyRadians]; ring
  refine ⟨?_, ?_, ?_⟩
  · have hA0 : haversineA 0 0 0 0 = 0 := by
      rw [haversineA, h0]
      norm_num
    rw [calculate_distance, hA0]
    norm_num [pyAtan2, Real.arctan_zero]
  · have h90 : pyRadians 90 = Real.pi / 2 := by rw [pyRadians]; ring
    have hA90 : haversineA 0 0 0 90 = 1 / 2 := by
      rw [haversineA, h90, h0]
      rw [show (Real.pi / 2 - 0) / 2 = Real.pi / 4 by ring]
      rw [Real.sin_pi_div_four, Real.cos_zero]
      rw [div_pow, Real.sq_sqrt (by norm_num : (0:ℝ) ≤ 2)]
      norm_num
    have hd : calculate_distance 0 0 0 90 = 6371 * (Real.pi / 2) := by
      rw [calculate_distance, hA90]
      rw [show (1:ℝ) - 1 / 2 = 1 / 2 by norm_num]
      have hs : 0 < Real.sqrt (1 / 2) := Real.sqrt_pos.mpr (by norm_num)
      rw [pyAtan2, if_pos hs]
      rw [div_self (ne_of_gt hs), Real.arctan_one]
      ring
    rw [hd, abs_lt]
    have hp1 := Real.pi_gt_d6
    have hp2 := Real.pi_lt_d6
    constructor <;> nlinarith
  · have hsin : ∀ x y : ℝ, Real.sin ((x - y) / 2) ^ 2 = Real.sin ((y - x) / 2) ^ 2 := by
      intro x y
      rw [show (x - y) / 2 = -((y - x) / 2) by ring, Real.sin_neg]
      ring
    have hAcomm : ∀ a b c d : ℝ, haversineA a b c d = haversineA c d a b := by
      intro a b c d
      rw [haversineA, haversineA]
      rw [hsin (pyRadians c) (pyRadians a), hsin (pyRadians d) (pyRadians b)]
      ring
    intro lat1 lon1 lat2 lon2
    rw [calculate_distance, calculate_distance, hAcomm lat1 lon1 lat2 lon2]

end Telegrampy
